import Mathlib

set_option maxHeartbeats 1000000

/-!
Shallow embedding of @compwright/ddb2es-serverless (fork of dynamo2es-lambda):
the record-to-action mapping pipeline (src/utils.js, src/build-request.js) and
the delivery coordinator (src/index.js), together with theorems checking the
natural-language specification against it.

JavaScript values are modelled by the inductive Value below; machine details
that the code never relies on (NaN, prototype chains) are out of scope, and
fallible code returns Except.
-/

namespace Ddb2Es

/-- A plain JavaScript value as produced by the DynamoDB unmarshaller and
consumed by the pipeline: null, booleans, (integer) numbers, strings, arrays
and plain objects (ordered key/value lists, keys unique in real JS objects). -/
inductive Value where
  | null : Value
  | bool : Bool → Value
  | num : Int → Value
  | str : String → Value
  | arr : List Value → Value
  | obj : List (String × Value) → Value

/-- JavaScript truthiness of a value (undefined is modelled by Option.none at
use sites; NaN does not arise for the integer-valued fields the code touches). -/
def Value.truthy : Value → Bool
  | .null => false
  | .bool b => b
  | .num n => decide (n ≠ 0)
  | .str s => !s.isEmpty
  | .arr _ => true
  | .obj _ => true

mutual

/-- JavaScript String() coercion as used by template literals and
Array.prototype.join on the values this pipeline produces. -/
def jsStr : Value → String
  | .null => "null"
  | .bool b => if b then "true" else "false"
  | .num n => toString n
  | .str s => s
  | .arr es => String.intercalate "," (jsElemStrs es)
  | .obj _ => "[object Object]"

/-- Element coercion inside Array.prototype.join: null (and undefined) become
the empty string, every other element is String()-coerced. -/
def jsElemStrs : List Value → List String
  | [] => []
  | Value.null :: rest => "" :: jsElemStrs rest
  | v :: rest => jsStr v :: jsElemStrs rest

end

/-- Array.prototype.join with an explicit separator. -/
def jsJoin (vs : List Value) (sep : String) : String :=
  String.intercalate sep (jsElemStrs vs)

/-- A decoded JS object view: ordered association list of fields. -/
abbrev JsObj := List (String × Value)

/-- First binding for a key in an object (JS objects have unique keys). -/
def lookupKey (fields : JsObj) (k : String) : Option Value :=
  (fields.find? (fun kv => kv.1 = k)).map (fun kv => kv.2)

/-- Split a character list on a separator character (the executable core of
lodash path parsing for the dotted paths this package uses). -/
def splitChars (sep : Char) : List Char → List Char → List String
  | [], acc => [String.mk acc.reverse]
  | ch :: rest, acc =>
      if ch = sep then String.mk acc.reverse :: splitChars sep rest []
      else splitChars sep rest (ch :: acc)

/-- lodash path parsing for the dotted string paths this package uses. -/
def parsePath (p : String) : List String :=
  splitChars '.' p.data []

/-- One step of a lodash get walk: descend into an object field, undefined
otherwise (array index paths are not used by this package). -/
def getSeg : Option Value → String → Option Value
  | some (.obj fs), k => lookupKey fs k
  | _, _ => none

/-- lodash get of a dotted path out of a decoded object view; undefined is
modelled as none. -/
def jsGet (o : JsObj) (path : String) : Option Value :=
  (parsePath path).foldl getSeg (some (.obj o))

/-- The canonical decoded record (utils.parseRecord output): three plain
object views. Mirrors the object DynamoDB.Converter.unmarshall returns. -/
structure ParsedRecord where
  Keys : JsObj
  NewImage : JsObj
  OldImage : JsObj

/-- The wire-level change-image bundle of one record (record.dynamodb), with
the sub-documents already unmarshalled: the unmarshall collaborator is a pure
decoder specified only at its interface boundary (spec section 6), so the
embedding works on its plain output; NewImage and OldImage may be absent. -/
structure RawDynamo where
  Keys : JsObj
  NewImage : Option JsObj := none
  OldImage : Option JsObj := none

/-- One raw change-stream record of the incoming batch. -/
structure RawRecord where
  eventName : Option String := none
  eventSource : Option String := none
  dynamodb : Option RawDynamo := none

/-- The incoming batch: an ordered sequence of change records. -/
structure Event where
  Records : List RawRecord

/-- The error taxonomy: FieldNotFoundError (carrying the record and the path),
ValidationError, UnknownEventNameError (carrying the raw record), and opaque
errors from hooks, the engine client, or the JS runtime. -/
inductive JsError where
  | fieldNotFound : ParsedRecord → String → JsError
  | validation : String → JsError
  | unknownEventName : RawRecord → JsError
  | external : String → JsError

/-- utils.getField: reduce over the Keys, NewImage, OldImage views keeping the
first defined value; FieldNotFoundError when all three are undefined. -/
def getField (parsedRecord : ParsedRecord) (path : String) : Except JsError Value :=
  match [parsedRecord.Keys, parsedRecord.NewImage, parsedRecord.OldImage].foldl
      (fun acc entry =>
        match acc with
        | none => jsGet entry path
        | some v => some v) none with
  | some v => .ok v
  | none => .error (.fieldNotFound parsedRecord path)

/-- A field path option as the source passes it around: either a single dotted
path string or an ordered array of path strings. -/
inductive PathSpec where
  | one : String → PathSpec
  | many : List String → PathSpec

/-- JS truthiness of a path spec: a string is truthy when non-empty, an array
is always truthy. -/
def PathSpec.truthy : PathSpec → Bool
  | .one p => !p.isEmpty
  | .many _ => true

/-- The value a path spec itself denotes (used where the source evaluates
`typeField && ...` and typeField is falsy, so the expression is the field). -/
def PathSpec.selfValue : PathSpec → Value
  | .one p => .str p
  | .many ps => .arr (ps.map Value.str)

/-- The sequential map of utils.assembleField's array branch:
paths.map(path => getField(parsedRecord, path)); the first lookup failure
aborts, exactly as a thrown FieldNotFoundError aborts Array.prototype.map. -/
def mapGetFields (parsedRecord : ParsedRecord) : List String → Except JsError (List Value)
  | [] => .ok []
  | p :: rest =>
      match getField parsedRecord p with
      | .error e => .error e
      | .ok v =>
          match mapGetFields parsedRecord rest with
          | .error e => .error e
          | .ok vs => .ok (v :: vs)

/-- utils.assembleField: an array of paths resolves each independently and
joins the results with the separator; a single path returns its resolved
value directly, with no string coercion. -/
def assembleField (parsedRecord : ParsedRecord) (paths : PathSpec) (separator : String) :
    Except JsError Value :=
  match paths with
  | .many ps =>
      match mapGetFields parsedRecord ps with
      | .error e => .error e
      | .ok vs => .ok (.str (jsJoin vs separator))
  | .one p => getField parsedRecord p

/-- assembleField as called with a possibly-undefined path option. lodash get
with an undefined path resolves nothing, so getField raises FieldNotFoundError;
this branch is unreachable under a schema-valid configuration. -/
def assembleFieldOpt (parsedRecord : ParsedRecord) (paths : Option PathSpec)
    (separator : String) : Except JsError Value :=
  match paths with
  | some spec => assembleField parsedRecord spec separator
  | none => .error (.fieldNotFound parsedRecord "undefined")

/-- utils.parseRecord: missing New/Old images decode to an empty document,
never to absent. -/
def parseRecord (d : RawDynamo) : ParsedRecord :=
  { Keys := d.Keys
    NewImage := d.NewImage.getD []
    OldImage := d.OldImage.getD [] }

/-- Insert or overwrite one key of an object, preserving field order. -/
def upsertKey (fields : JsObj) (k : String) (v : Value) : JsObj :=
  if fields.any (fun kv => kv.1 = k) then
    fields.map (fun kv => if kv.1 = k then (k, v) else kv)
  else fields ++ [(k, v)]

/-- Set a parsed path inside an object, creating nested objects as needed
(the shape lodash pick builds its result with). -/
def setSegs : JsObj → List String → Value → JsObj
  | fields, [], _ => fields
  | fields, [k], v => upsertKey fields k v
  | fields, k :: ks, v =>
      let child : JsObj :=
        match lookupKey fields k with
        | some (Value.obj g) => g
        | _ => []
      upsertKey fields k (Value.obj (setSegs child ks v))

/-- lodash pick with dotted paths: every path that resolves in the source
object is copied, at its own nested position, into the result. -/
def jsPick (o : JsObj) (paths : List String) : JsObj :=
  paths.foldl
    (fun acc p =>
      match jsGet o p with
      | some v => setSegs acc (parsePath p) v
      | none => acc) []

/-- The write-action descriptor built per record. A missing optional
attribute (deleted or never set on the JS object) is none. -/
structure ActionDesc where
  _index : Value
  _type : Option Value := none
  _id : Value
  parent : Option Value := none
  version : Option Value := none
  versionType : Option String := none

/-- A bulk action entry: an upsert descriptor or a delete descriptor. -/
inductive Action where
  | index : ActionDesc → Action
  | delete : ActionDesc → Action

/-- One element of the flat bulk body: an action wrapper or a document. -/
inductive BulkItem where
  | act : Action → BulkItem
  | doc : Value → BulkItem

/-- One metadata entry of the parallel meta list. The source stores the raw
record merged with the decoded images; the embedding keeps both halves of
that merge side by side. -/
structure MetaEntry where
  eventRaw : RawRecord
  eventParsed : ParsedRecord
  action : Action
  document : Value

/-- The invocation context is opaque at this layer: the handler only threads
it through to hooks. -/
abbrev Ctx := Unit

/-- The one request the engine client's bulk entry point receives:
the caller-supplied bulk options spread together with the assembled body. -/
structure BulkRequest where
  opts : JsObj
  body : List BulkItem

/-- The recognized part of retryOptions; every other backoff option passes
through opaquely to the retry driver. -/
structure RetryOptions where
  retries : Option Nat := none

/-- options.elasticsearch: the engine client plus extra bulk options. The
client is the delivery collaborator (spec section 6): one asynchronous batch
submission, here indexed by the attempt number so that a stateful or
always-failing client is expressible. -/
structure EsOptions where
  client : BulkRequest → Nat → Except JsError Value
  bulk : JsObj := []

/-- The validated handler configuration. Absent JS options are none; hooks
are pure functions that may throw (Except). -/
structure Options where
  elasticsearch : EsOptions
  retryOptions : Option RetryOptions := none
  separator : Option String := none
  indexPrefixOpt : Option String := none
  index : Option String := none
  indexField : Option PathSpec := none
  type : Option String := none
  typeField : Option PathSpec := none
  idField : Option PathSpec := none
  idResolver : Option (Value → JsObj → Value) := none
  parentField : Option String := none
  versionField : Option String := none
  versionResolver : Option (Value → JsObj → Value) := none
  pickFields : Option (List String) := none
  transformRecordHook : Option (Value → JsObj → Value) := none
  beforeHook : Option (Event → Ctx → Except JsError Unit) := none
  afterHook : Option (Event → Ctx → Value → List MetaEntry → Except JsError (Option Value)) := none
  errorHook : Option (Event → Ctx → JsError → Except JsError Value) := none
  recordErrorHook : Option (Event → Ctx → JsError → Except JsError Unit) := none

/-- JS truthiness of an optional string option (undefined and the empty
string are falsy). -/
def optStrTruthy : Option String → Bool
  | some s => !s.isEmpty
  | none => false

/-- JS truthiness of an optional path spec option. -/
def optSpecTruthy : Option PathSpec → Bool
  | some ps => ps.truthy
  | none => false

/-- Modelled from the spec: the VERSION schema lives in the repository file
schemas.js, which is not present under src/. Per the spec the resolved
version is validated to be numeric and the validation fails with a
ValidationError otherwise. -/
def validateVersion (v : Value) : Except JsError Value :=
  match v with
  | .num n => .ok (.num n)
  | _ => .error (.validation "must be a number")

/-- build-request.js buildDoc: NewImage, or its pickFields projection, then
optionally replaced by transformRecordHook (which may return a falsy value
to signal skip). -/
def buildDoc (parsedRecord : ParsedRecord) (options : Options) : Value :=
  let doc : Value :=
    match options.pickFields with
    | some fields => .obj (jsPick parsedRecord.NewImage fields)
    | none => .obj parsedRecord.NewImage
  match options.transformRecordHook with
  | some hook => hook doc parsedRecord.OldImage
  | none => doc

/-- The document id resolution of buildAction: idResolver if present, else
idField if truthy, else assembleField over all of Keys' field names. -/
def resolveId (parsedRecord : ParsedRecord) (options : Options) (doc : Value)
    (separator : String) : Except JsError Value :=
  match options.idResolver with
  | some resolver => .ok (resolver doc parsedRecord.OldImage)
  | none =>
      if optSpecTruthy options.idField then
        assembleFieldOpt parsedRecord options.idField separator
      else
        assembleField parsedRecord (.many (parsedRecord.Keys.map Prod.fst)) separator

/-- The index-name resolution of buildAction: the literal index option, or
the template literal of the index prefix and the assembled indexField (the
assembled value is String()-coerced by the template literal). -/
def resolveIndex (parsedRecord : ParsedRecord) (options : Options)
    (separator ipre : String) : Except JsError Value :=
  if optStrTruthy options.index then
    .ok (.str (options.index.getD ""))
  else
    match assembleFieldOpt parsedRecord options.indexField separator with
    | .error e => .error e
    | .ok v => .ok (.str (ipre ++ jsStr v))

/-- The raw _type expression of buildAction before blank omission:
options.type, or else (options.typeField && assembleField(...)); none models
JS undefined. -/
def resolveType0 (parsedRecord : ParsedRecord) (options : Options)
    (separator : String) : Except JsError (Option Value) :=
  if optStrTruthy options.type then
    .ok (some (.str (options.type.getD "")))
  else
    match options.typeField with
    | none => .ok none
    | some pf =>
        if pf.truthy then
          match assembleField parsedRecord pf separator with
          | .error e => .error e
          | .ok v => .ok (some v)
        else
          .ok (some pf.selfValue)

/-- The blank-_type omission of buildAction: a falsy type attribute is
deleted from the descriptor. -/
def omitBlankType : Option Value → Option Value
  | some v => if v.truthy then some v else none
  | none => none

/-- The parent resolution of buildAction: getField over parentField when the
option is truthy. -/
def resolveParent (parsedRecord : ParsedRecord) (options : Options) :
    Except JsError (Option Value) :=
  if optStrTruthy options.parentField then
    match getField parsedRecord (options.parentField.getD "") with
    | .error e => .error e
    | .ok v => .ok (some v)
  else .ok none

/-- The version resolution of buildAction: versionResolver or getField over
versionField, then VERSION validation; none when neither option is set. -/
def resolveVersion (parsedRecord : ParsedRecord) (options : Options) (doc : Value) :
    Except JsError (Option Value) :=
  if options.versionResolver.isSome || optStrTruthy options.versionField then
    match (match options.versionResolver with
           | some resolver => Except.ok (resolver doc parsedRecord.OldImage)
           | none => getField parsedRecord (options.versionField.getD "")) with
    | .error e => .error e
    | .ok version =>
        match validateVersion version with
        | .error e => .error e
        | .ok version2 => .ok (some version2)
  else .ok none

/-- The document and descriptor buildAction returns. -/
structure BuildOut where
  doc : Value
  action : ActionDesc

/-- build-request.js buildAction, with each resolution step named above and
evaluated in the source's order (id, index, type, parent, version).
versionType is set to external exactly when a version is set. -/
def buildAction (parsedRecord : ParsedRecord) (options : Options) :
    Except JsError BuildOut :=
  let separator := options.separator.getD "."
  let ipre := options.indexPrefixOpt.getD ""
  let doc := buildDoc parsedRecord options
  match resolveId parsedRecord options doc separator with
  | .error e => .error e
  | .ok id =>
      match resolveIndex parsedRecord options separator ipre with
      | .error e => .error e
      | .ok idxVal =>
          match resolveType0 parsedRecord options separator with
          | .error e => .error e
          | .ok type0 =>
              match resolveParent parsedRecord options with
              | .error e => .error e
              | .ok parentV =>
                  match resolveVersion parsedRecord options doc with
                  | .error e => .error e
                  | .ok versionV =>
                      .ok { doc := doc
                            action := { _index := idxVal
                                        _type := omitBlankType type0
                                        _id := id
                                        parent := parentV
                                        version := versionV
                                        versionType :=
                                          if versionV.isSome then some "external"
                                          else none } }

/-- The JS ++ on the version attribute. Every version stored on a descriptor
passed VERSION validation, so only the numeric case is reachable. -/
def jsIncrement : Value → Value
  | .num n => .num (n + 1)
  | v => v

/-- The try body buildRequest runs for one record: decode, build doc and
action, skip when the document is falsy, dispatch on eventName (REMOVE
increments a set version before emitting a delete action), and produce the
bulk items together with the metadata entry. Accessing dynamodb on a record
that has none is the JS TypeError the source would raise there. -/
def recordStep (record : RawRecord) (options : Options) :
    Except JsError (List BulkItem × List MetaEntry) :=
  match record.dynamodb with
  | none => Except.error (.external "TypeError: record.dynamodb is undefined")
  | some d =>
      let parsedRecord := parseRecord d
      match buildAction parsedRecord options with
      | .error e => .error e
      | .ok out =>
          if out.doc.truthy then
            match (match record.eventName with
                   | some "INSERT" => Except.ok (Action.index out.action)
                   | some "MODIFY" => Except.ok (Action.index out.action)
                   | some "REMOVE" =>
                       let desc :=
                         if out.action.version.isSome then
                           { out.action with
                             version := out.action.version.map jsIncrement }
                         else out.action
                       Except.ok (Action.delete desc)
                   | _ => Except.error (JsError.unknownEventName record)) with
            | .error e => .error e
            | .ok action =>
                let items :=
                  match action with
                  | Action.index d0 =>
                      [BulkItem.act (Action.index d0), BulkItem.doc out.doc]
                  | Action.delete d0 => [BulkItem.act (Action.delete d0)]
                .ok (items,
                  [{ eventRaw := record, eventParsed := parsedRecord,
                     action := action, document := out.doc }])
          else
            .ok ([], [])

/-- The accumulator of buildRequest's reduce: the flat action list and the
parallel metadata list. -/
structure BuildAcc where
  actions : List BulkItem
  meta : List MetaEntry

/-- build-request.js buildRequest: an order-preserving fold over the batch;
a per-record failure is routed to recordErrorHook when configured (a throw
inside the hook propagates) and aborts the whole batch otherwise. -/
def buildRequest (event : Event) (ctx : Ctx) (options : Options) :
    Except JsError BuildAcc :=
  event.Records.foldlM
    (fun acc record =>
      match recordStep record options with
      | .ok pr =>
          .ok { actions := acc.actions ++ pr.1, meta := acc.meta ++ pr.2 }
      | .error err =>
          match options.recordErrorHook with
          | some hook =>
              (match hook event ctx err with
               | .error e2 => .error e2
               | .ok _ => .ok acc)
          | none => .error err)
    { actions := [], meta := [] }

/-- Modelled from the spec: the EVENT schema lives in schemas.js, which is
not present under src/. Per the spec, batch validation checks the
incoming-batch shape (an ordered sequence of records, each with an eventName
and a nested change-image bundle), tolerates unknown fields, and fails with
a ValidationError. -/
def validateEvent (event : Event) : Except JsError Unit :=
  if event.Records.all (fun r => r.eventName.isSome && r.dynamodb.isSome) then
    .ok ()
  else
    .error (.validation "event does not match the expected batch shape")

/-- Modelled from the spec: the retry collaborator (p-retry) is an external
dependency specified at its interface boundary, invoking the operation up to
retries + 1 times total, sequentially. The operation receives the attempt
index; the pair returned is the final outcome together with the number of
invocations actually made. -/
def retryGo (op : Nat → Except JsError α) : Nat → Nat → Except JsError α × Nat
  | _, 0 => (.error (.external "retry: no attempt allowed"), 0)
  | attempt, fuel + 1 =>
      match op attempt with
      | .ok a => (.ok a, 1)
      | .error e =>
          if fuel = 0 then (.error e, 1)
          else
            let next := retryGo op (attempt + 1) fuel
            (next.1, next.2 + 1)

/-- The retry driver entry point: retries + 1 attempts allowed in total. -/
def retryRun (op : Nat → Except JsError α) (retries : Nat) : Except JsError α × Nat :=
  retryGo op 0 (retries + 1)

/-- index.js DEFAULT_RETRY_COUNT. -/
def DEFAULT_RETRY_COUNT : Nat := 0

/-- The canonical empty result the handler returns when the assembled action
list is empty. -/
def emptyBulkResult : Value :=
  .obj [("took", .num 0), ("errors", .bool false), ("items", .arr [])]

/-- The retries count after spreading retryOptions over the default. -/
def effectiveRetries (options : Options) : Nat :=
  match options.retryOptions with
  | some ro => ro.retries.getD DEFAULT_RETRY_COUNT
  | none => DEFAULT_RETRY_COUNT

/-- One invocation's observable outcome: the settled result plus how many
times the engine client's bulk entry point and the afterHook were invoked. -/
structure Trace where
  result : Except JsError Value
  bulkCalls : Nat
  afterCalls : Nat

/-- The try body of index.js handle: beforeHook, batch validation, batch
assembly, the empty-batch short circuit, the retried submission, and the
afterHook whose non-undefined return value overrides the result. -/
def handleTry (options : Options) (event : Event) (ctx : Ctx) : Trace :=
  match (match options.beforeHook with
         | some hook => hook event ctx
         | none => Except.ok ()) with
  | .error e => { result := .error e, bulkCalls := 0, afterCalls := 0 }
  | .ok _ =>
    match validateEvent event with
    | .error e => { result := .error e, bulkCalls := 0, afterCalls := 0 }
    | .ok _ =>
      match buildRequest event ctx options with
      | .error e => { result := .error e, bulkCalls := 0, afterCalls := 0 }
      | .ok parsedEvent =>
        if parsedEvent.actions.length = 0 then
          { result := .ok emptyBulkResult, bulkCalls := 0, afterCalls := 0 }
        else
          let op : Nat → Except JsError (Value × List MetaEntry) := fun attempt =>
            (options.elasticsearch.client
                { opts := options.elasticsearch.bulk, body := parsedEvent.actions }
                attempt).map
              (fun result => (result, parsedEvent.meta))
          let attempted := retryRun op (effectiveRetries options)
          match attempted.1 with
          | .error e => { result := .error e, bulkCalls := attempted.2, afterCalls := 0 }
          | .ok pr =>
              match options.afterHook with
              | some hook =>
                  match hook event ctx pr.1 pr.2 with
                  | .error e =>
                      { result := .error e, bulkCalls := attempted.2, afterCalls := 1 }
                  | .ok (some hookResult) =>
                      { result := .ok hookResult, bulkCalls := attempted.2, afterCalls := 1 }
                  | .ok none =>
                      { result := .ok pr.1, bulkCalls := attempted.2, afterCalls := 1 }
              | none => { result := .ok pr.1, bulkCalls := attempted.2, afterCalls := 0 }

/-- index.js handle: the try body wrapped by the catch that routes any raised
error to errorHook when configured (returning its result) and re-raises it
otherwise. -/
def handle (options : Options) (event : Event) (ctx : Ctx) : Trace :=
  let t := handleTry options event ctx
  match t.result with
  | .ok v => { t with result := .ok v }
  | .error err =>
      match options.errorHook with
      | some hook => { t with result := hook event ctx err }
      | none => t

/-! ## Helper lemmas -/

/-- Inversion of buildAction: a successful build determines every resolution
step and the shape of the returned document and descriptor. -/
theorem buildAction_inv (r : ParsedRecord) (o : Options) (out : BuildOut)
    (h : buildAction r o = .ok out) :
    ∃ id idx t0 par ver,
      resolveId r o (buildDoc r o) (o.separator.getD ".") = .ok id ∧
      resolveIndex r o (o.separator.getD ".") (o.indexPrefixOpt.getD "") = .ok idx ∧
      resolveType0 r o (o.separator.getD ".") = .ok t0 ∧
      resolveParent r o = .ok par ∧
      resolveVersion r o (buildDoc r o) = .ok ver ∧
      out = { doc := buildDoc r o
              action := { _index := idx, _type := omitBlankType t0, _id := id,
                          parent := par, version := ver,
                          versionType := if ver.isSome then some "external" else none } } := by
  unfold buildAction at h
  dsimp only at h
  cases h1 : resolveId r o (buildDoc r o) (o.separator.getD ".") with
  | error e => rw [h1] at h; exact absurd h (by simp)
  | ok id =>
    rw [h1] at h
    cases h2 : resolveIndex r o (o.separator.getD ".") (o.indexPrefixOpt.getD "") with
    | error e => rw [h2] at h; exact absurd h (by simp)
    | ok idx =>
      rw [h2] at h
      cases h3 : resolveType0 r o (o.separator.getD ".") with
      | error e => rw [h3] at h; exact absurd h (by simp)
      | ok t0 =>
        rw [h3] at h
        cases h4 : resolveParent r o with
        | error e => rw [h4] at h; exact absurd h (by simp)
        | ok par =>
          rw [h4] at h
          cases h5 : resolveVersion r o (buildDoc r o) with
          | error e => rw [h5] at h; exact absurd h (by simp)
          | ok ver =>
            rw [h5] at h
            refine ⟨id, idx, t0, par, ver, rfl, rfl, rfl, rfl, rfl, ?_⟩
            cases h
            rfl

/-- In an object whose keys are unique, looking a present key up finds its
value. -/
theorem lookupKey_of_mem (fs : JsObj) (k : String) (v : Value)
    (hmem : (k, v) ∈ fs) (hnod : (fs.map Prod.fst).Nodup) :
    lookupKey fs k = some v := by
  induction fs with
  | nil => cases hmem
  | cons hd tl ih =>
    rw [List.mem_cons] at hmem
    rw [List.map_cons, List.nodup_cons] at hnod
    rcases hmem with h | h
    · cases h
      simp [lookupKey]
    · have hk : ¬(hd.1 = k) := by
        intro he
        exact hnod.1 (he ▸ List.mem_map_of_mem Prod.fst h)
      have := ih h hnod.2
      simp only [lookupKey, List.find?] at this ⊢
      simp [hk, this]

/-- A unique, dot-free key of the Keys view resolves to its own value:
the Keys view is searched first, so no image can shadow it. -/
theorem getField_keys (r : ParsedRecord) (k : String) (v : Value)
    (hmem : (k, v) ∈ r.Keys) (hnod : (r.Keys.map Prod.fst).Nodup)
    (hdot : parsePath k = [k]) :
    getField r k = .ok v := by
  have hget : jsGet r.Keys k = some v := by
    unfold jsGet
    rw [hdot]
    simp [getSeg, lookupKey_of_mem r.Keys k v hmem hnod]
  unfold getField
  simp [hget]

/-- Mapping getField over the first components of an association list whose
lookups all succeed returns the second components. -/
theorem mapGetFields_keys (r : ParsedRecord) (l : List (String × Value))
    (h : ∀ kv ∈ l, getField r kv.1 = .ok kv.2) :
    mapGetFields r (l.map Prod.fst) = .ok (l.map Prod.snd) := by
  induction l with
  | nil => rfl
  | cons hd tl ih =>
    have h1 := h hd (by simp)
    have h2 : ∀ kv ∈ tl, getField r kv.1 = .ok kv.2 := fun kv hm => h kv (by simp [hm])
    simp [mapGetFields, h1, ih h2]

/-- Pointwise-successful lookups make the array branch of assembleField
return exactly the joined resolved values. -/
theorem mapGetFields_forall2 (r : ParsedRecord) (paths : List String) (vs : List Value)
    (h : List.Forall₂ (fun p v => getField r p = .ok v) paths vs) :
    mapGetFields r paths = .ok vs := by
  induction h with
  | nil => rfl
  | cons h1 _ ih => simp [mapGetFields, h1, ih]

/-- An always-failing operation is invoked once per unit of fuel and the
final outcome is a failure. -/
theorem retryGo_allFail (op : Nat → Except JsError α)
    (hfail : ∀ k, ∃ er, op k = .error er) :
    ∀ fuel attempt, fuel ≠ 0 →
      (retryGo op attempt fuel).2 = fuel ∧ ∃ er, (retryGo op attempt fuel).1 = .error er := by
  intro fuel
  induction fuel with
  | zero => intro _ hne; exact absurd rfl hne
  | succ n ih =>
    intro attempt _
    obtain ⟨er, her⟩ := hfail attempt
    by_cases hn : n = 0
    · subst hn; simp [retryGo, her]
    · have h2 := ih (attempt + 1) hn
      refine ⟨?_, ?_⟩
      · simp [retryGo, her, hn, h2.1]
      · simpa [retryGo, her, hn] using h2.2

/-- A successful retried outcome comes from some successful invocation. -/
theorem retryGo_ok (op : Nat → Except JsError α) :
    ∀ fuel attempt a, (retryGo op attempt fuel).1 = .ok a → ∃ k, op k = .ok a := by
  intro fuel
  induction fuel with
  | zero => intro attempt a h; simp [retryGo] at h
  | succ n ih =>
    intro attempt a h
    cases hop : op attempt with
    | ok b =>
      simp only [retryGo, hop] at h
      cases h
      exact ⟨attempt, hop⟩
    | error e =>
      simp only [retryGo, hop] at h
      by_cases hn : n = 0
      · rw [if_pos hn] at h; cases h
      · rw [if_neg hn] at h
        exact ih (attempt + 1) a h

/-- The errorHook wrapper changes only the settled result, never the
invocation counters. -/
theorem handle_counts (o : Options) (e : Event) (ctx : Ctx) :
    (handle o e ctx).bulkCalls = (handleTry o e ctx).bulkCalls
    ∧ (handle o e ctx).afterCalls = (handleTry o e ctx).afterCalls := by
  unfold handle
  dsimp only
  cases hres : (handleTry o e ctx).result with
  | ok v => exact ⟨rfl, rfl⟩
  | error er =>
    cases o.errorHook with
    | none => exact ⟨rfl, rfl⟩
    | some hook => exact ⟨rfl, rfl⟩

/-- When nothing before the empty-batch check fails and the assembled action
list is empty, the whole invocation is the canonical empty trace. -/
theorem handle_empty (o : Options) (e : Event) (ctx : Ctx) (acc : BuildAcc)
    (hb : ∀ h, o.beforeHook = some h → h e ctx = .ok ())
    (hv : validateEvent e = .ok ())
    (hr : buildRequest e ctx o = .ok acc)
    (hempty : acc.actions = []) :
    handle o e ctx = { result := .ok emptyBulkResult, bulkCalls := 0, afterCalls := 0 } := by
  have hb2 : (match o.beforeHook with
              | some hook => hook e ctx
              | none => Except.ok ()) = Except.ok () := by
    cases hbh : o.beforeHook with
    | none => rfl
    | some hook => exact hb hook hbh
  have htry : handleTry o e ctx =
      { result := .ok emptyBulkResult, bulkCalls := 0, afterCalls := 0 } := by
    unfold handleTry
    rw [hb2, hv, hr]
    dsimp only
    rw [hempty]
    rfl
  unfold handle
  rw [htry]

/-! ## Claim theorems -/


/-! ## Claim C1 -/

def c1Rec : ParsedRecord :=
  { Keys := [("a", .str "x"), ("b", .str "y")], NewImage := [("a", .str "x")], OldImage := [] }

def c1Opts : Options :=
  { elasticsearch := { client := fun _ _ => .ok emptyBulkResult }, index := some "idx" }

/-- C1: counterexample. On the record with Keys a:x, b:y and no idField or
idResolver, the document id placed in the descriptor is the joined key
VALUES x.y, not the joined key NAMES a.b that the claim asserts. -/
theorem c1_counterexample :
    (buildAction c1Rec c1Opts).map (fun out => out.action._id) = .ok (.str "x.y")
    ∧ Value.str "x.y" ≠ Value.str "a.b" := by
  refine ⟨rfl, ?_⟩
  intro h
  exact absurd (Value.str.inj h) (by decide)

/-- C1 (amended): for every decoded record whose key names are unique and
dot-free, when neither idField nor idResolver is configured, the document id
in the action descriptor equals the concatenation of the record's Keys field
VALUES (the field names are used as lookup paths, so the Keys view resolves
each to its value) joined by the configured separator. -/
theorem c1_amended (r : ParsedRecord) (o : Options) (out : BuildOut)
    (hres : o.idResolver = none) (hfld : o.idField = none)
    (hnod : (r.Keys.map Prod.fst).Nodup)
    (hdot : ∀ kv ∈ r.Keys, parsePath kv.1 = [kv.1])
    (hok : buildAction r o = .ok out) :
    out.action._id = .str (jsJoin (r.Keys.map Prod.snd) (o.separator.getD ".")) := by
  obtain ⟨id, idx, t0, par, ver, hid, _, _, _, _, hout⟩ := buildAction_inv r o out hok
  subst hout
  have hpt : ∀ kv ∈ r.Keys, getField r kv.1 = .ok kv.2 := fun kv hm =>
    getField_keys r kv.1 kv.2 hm hnod (hdot kv hm)
  unfold resolveId at hid
  rw [hres, hfld] at hid
  simp only [optSpecTruthy, Bool.false_eq_true, if_false] at hid
  rw [assembleField] at hid
  rw [mapGetFields_keys r r.Keys hpt] at hid
  cases hid
  rfl

/-- C1 witness: the amended theorem instantiated on a concrete record. -/
theorem c1_amended_witness :
    c1Opts.idResolver = none ∧ c1Opts.idField = none ∧
    (buildAction c1Rec c1Opts).map (fun out => out.action._id) =
      .ok (.str (jsJoin (c1Rec.Keys.map Prod.snd) ".")) := by
  refine ⟨rfl, rfl, ?_⟩
  have h := c1_amended c1Rec c1Opts
    { doc := .obj [("a", .str "x")],
      action := { _index := .str "idx", _id := .str "x.y" } }
    rfl rfl (by decide) (by decide) rfl
  rw [show (buildAction c1Rec c1Opts) = .ok
    { doc := .obj [("a", .str "x")],
      action := { _index := .str "idx", _id := .str "x.y" } } from rfl]
  rw [Except.map]
  rw [h]
  rfl


/-! ## Claim C2 -/

def c2Client : BulkRequest → Nat → Except JsError Value := fun _ _ => .ok emptyBulkResult

def c2Opts : Options :=
  { elasticsearch := { client := c2Client }, index := some "i",
    transformRecordHook := some (fun _ _ => .null) }

def c2Event : Event :=
  { Records := [{ eventName := some "INSERT", dynamodb := some { Keys := [("k", .num 1)] } }] }

/-- C2: for every invocation whose assembled action list is empty, the
handler never invokes the engine client's bulk submission (the bulk-call
count is zero) and returns exactly the canonical empty result
(took 0, errors false, items empty). -/
theorem c2_empty_short_circuit (o : Options) (e : Event) (ctx : Ctx) (acc : BuildAcc)
    (hb : ∀ h, o.beforeHook = some h → h e ctx = .ok ())
    (hv : validateEvent e = .ok ())
    (hr : buildRequest e ctx o = .ok acc)
    (hempty : acc.actions = []) :
    (handle o e ctx).result = .ok emptyBulkResult ∧ (handle o e ctx).bulkCalls = 0 := by
  rw [handle_empty o e ctx acc hb hv hr hempty]
  exact ⟨rfl, rfl⟩

/-- C2 witness: a batch whose only record's document is transformed to null
assembles no actions, so the handler returns the canonical empty result
without submitting. -/
theorem c2_empty_witness :
    validateEvent c2Event = .ok () ∧
    (handle c2Opts c2Event ()).result = .ok emptyBulkResult ∧
    (handle c2Opts c2Event ()).bulkCalls = 0 :=
  ⟨rfl, c2_empty_short_circuit c2Opts c2Event () { actions := [], meta := [] }
      (fun _f hh => nomatch hh) rfl rfl rfl⟩

/-! ## Claim C3 -/

def c3Client : BulkRequest → Nat → Except JsError Value := fun _ _ => .ok emptyBulkResult

def c3Event : Event := { Records := [{ dynamodb := some { Keys := [("k", .num 1)] } }] }

def c3Opts : Options :=
  { elasticsearch := { client := c3Client }, index := some "i",
    errorHook := some (fun _ _ _ => .ok (.str "handled")) }

/-- C3: counterexample. An incoming-batch shape ValidationError does NOT
propagate when an errorHook is configured: the hook intercepts it and its
return value becomes the invocation result. -/
theorem c3_counterexample :
    (∃ er, validateEvent c3Event = .error er)
    ∧ c3Opts.errorHook.isSome = true
    ∧ (handle c3Opts c3Event ()).result = .ok (.str "handled")
    ∧ (handle c3Opts c3Event ()).result ≠
        .error (.validation "event does not match the expected batch shape") := by
  refine ⟨⟨_, rfl⟩, rfl, rfl, ?_⟩
  intro h
  rw [show (handle c3Opts c3Event ()).result = .ok (.str "handled") from rfl] at h
  exact Except.noConfusion h

/-- C3 (amended): an incoming-batch shape ValidationError aborts submission
and propagates to the caller exactly when no errorHook is configured; when an
errorHook is configured, the error is routed to it and the hook's outcome
becomes the result. -/
theorem c3_amended (o : Options) (e : Event) (ctx : Ctx) (er : JsError)
    (hb : ∀ h, o.beforeHook = some h → h e ctx = .ok ())
    (hv : validateEvent e = .error er) :
    ((o.errorHook = none → (handle o e ctx).result = .error er)
     ∧ ∀ g, o.errorHook = some g → (handle o e ctx).result = g e ctx er) := by
  have hb2 : (match o.beforeHook with
              | some hook => hook e ctx
              | none => Except.ok ()) = Except.ok () := by
    cases hbh : o.beforeHook with
    | none => rfl
    | some hook => exact hb hook hbh
  have htry : handleTry o e ctx =
      { result := .error er, bulkCalls := 0, afterCalls := 0 } := by
    unfold handleTry
    rw [hb2, hv]
  constructor
  · intro hnone
    unfold handle
    rw [htry]
    dsimp only
    rw [hnone]
  · intro g hg
    unfold handle
    rw [htry]
    dsimp only
    rw [hg]

def c3OptsNone : Options := { elasticsearch := { client := c3Client }, index := some "i" }

/-- C3 witness: the amended theorem instantiated with and without an
errorHook on a batch whose record lacks an eventName. -/
theorem c3_amended_witness :
    (handle c3OptsNone c3Event ()).result =
      .error (.validation "event does not match the expected batch shape") ∧
    (handle c3Opts c3Event ()).result = .ok (.str "handled") := by
  constructor
  · exact (c3_amended c3OptsNone c3Event () _ (fun h hh => nomatch hh) rfl).1 rfl
  · exact (c3_amended c3Opts c3Event () _ (fun h hh => nomatch hh) rfl).2 _ rfl

/-! ## Claim C4 -/

/-- C4: for every REMOVE-event record whose built descriptor carries a
(validated, numeric) version and whose document is truthy, the emitted delete
action descriptor carries the resolved version plus one, and the metadata
entry records the same incremented descriptor. -/
theorem c4_remove_version_increment (record : RawRecord) (o : Options) (d : RawDynamo)
    (out : BuildOut) (n : Int)
    (hdyn : record.dynamodb = some d)
    (hev : record.eventName = some "REMOVE")
    (hact : buildAction (parseRecord d) o = .ok out)
    (hver : out.action.version = some (.num n))
    (hdoc : out.doc.truthy = true) :
    recordStep record o =
      .ok ([.act (.delete { out.action with version := some (.num (n + 1)) })],
           [{ eventRaw := record, eventParsed := parseRecord d,
              action := .delete { out.action with version := some (.num (n + 1)) },
              document := out.doc }]) := by
  unfold recordStep
  rw [hdyn]
  dsimp only
  rw [hact]
  dsimp only
  rw [hdoc, hev]
  simp [hver, jsIncrement]

def c4Client : BulkRequest → Nat → Except JsError Value := fun _ _ => .ok emptyBulkResult

def c4Dyn : RawDynamo := { Keys := [("k", .num 1)], OldImage := some [("v", .num 5)] }

def c4Rec : RawRecord := { eventName := some "REMOVE", dynamodb := some c4Dyn }

def c4Opts : Options :=
  { elasticsearch := { client := c4Client }, index := some "i", versionField := some "v" }

def c4Out : BuildOut :=
  { doc := .obj [],
    action := { _index := .str "i", _id := .str "1",
                version := some (.num 5), versionType := some "external" } }

/-- C4 witness: a REMOVE record with versionField v resolving to 5 emits a
delete action with version 6. -/
theorem c4_witness :
    recordStep c4Rec c4Opts =
      .ok ([.act (.delete { c4Out.action with version := some (.num 6) })],
           [{ eventRaw := c4Rec, eventParsed := parseRecord c4Dyn,
              action := .delete { c4Out.action with version := some (.num 6) },
              document := c4Out.doc }]) := by
  have h := c4_remove_version_increment c4Rec c4Opts c4Dyn c4Out 5 rfl rfl rfl rfl rfl
  exact h

/-! ## Claim C5 -/

def c5Client : BulkRequest → Nat → Except JsError Value := fun _ _ => .ok emptyBulkResult

def c5Event : Event := { Records := [] }

def c5Opts : Options :=
  { elasticsearch := { client := c5Client }, index := some "i",
    beforeHook := some (fun _ _ => .error (.external "before hook failure")),
    errorHook := some (fun _ _ _ => .ok (.str "intercepted")) }

/-- C5: counterexample. A throwing beforeHook is NOT always uncaught: with
an errorHook configured, the catch block routes the failure to the errorHook
and its return value becomes the result. -/
theorem c5_counterexample :
    c5Opts.beforeHook.isSome = true ∧
    (handle c5Opts c5Event ()).result = .ok (.str "intercepted") ∧
    (handle c5Opts c5Event ()).result ≠ .error (.external "before hook failure") := by
  refine ⟨rfl, rfl, ?_⟩
  intro h
  rw [show (handle c5Opts c5Event ()).result = .ok (.str "intercepted") from rfl] at h
  exact Except.noConfusion h

/-- C5 (amended): when a configured beforeHook throws, nothing is validated,
assembled or submitted, and the failure propagates to the caller exactly when
no errorHook is configured; with an errorHook configured the failure is routed
to that hook and its outcome becomes the result. -/
theorem c5_amended (o : Options) (e : Event) (ctx : Ctx)
    (h : Event → Ctx → Except JsError Unit) (er : JsError)
    (hbh : o.beforeHook = some h) (hthrow : h e ctx = .error er) :
    ((o.errorHook = none → handle o e ctx =
        { result := .error er, bulkCalls := 0, afterCalls := 0 })
     ∧ ∀ g, o.errorHook = some g → (handle o e ctx).result = g e ctx er) := by
  have htry : handleTry o e ctx =
      { result := .error er, bulkCalls := 0, afterCalls := 0 } := by
    unfold handleTry
    rw [hbh]
    dsimp only
    rw [hthrow]
  constructor
  · intro hnone
    unfold handle
    rw [htry]
    dsimp only
    rw [hnone]
  · intro g hg
    unfold handle
    rw [htry]
    dsimp only
    rw [hg]

def c5OptsNone : Options :=
  { elasticsearch := { client := c5Client }, index := some "i",
    beforeHook := some (fun _ _ => .error (.external "before hook failure")) }

/-- C5 witness: the amended theorem instantiated with and without an
errorHook for a beforeHook that throws. -/
theorem c5_amended_witness :
    handle c5OptsNone c5Event () =
      { result := .error (.external "before hook failure"), bulkCalls := 0, afterCalls := 0 } ∧
    (handle c5Opts c5Event ()).result = .ok (.str "intercepted") := by
  constructor
  · exact (c5_amended c5OptsNone c5Event () _ _ rfl rfl).1 rfl
  · exact (c5_amended c5Opts c5Event () _ _ rfl rfl).2 _ rfl


theorem handle_allFail (o : Options) (e : Event) (ctx : Ctx) (acc : BuildAcc)
    (hb : ∀ h, o.beforeHook = some h → h e ctx = .ok ())
    (hv : validateEvent e = .ok ())
    (hr : buildRequest e ctx o = .ok acc)
    (hne : acc.actions ≠ [])
    (hfail : ∀ req k, ∃ er, o.elasticsearch.client req k = .error er)
    (hho : o.errorHook = none) :
    (handle o e ctx).bulkCalls = effectiveRetries o + 1
    ∧ ∃ er2, (handle o e ctx).result = .error er2 := by
  have hb2 : (match o.beforeHook with
              | some hook => hook e ctx
              | none => Except.ok ()) = Except.ok () := by
    cases hbh : o.beforeHook with
    | none => rfl
    | some hook => exact hb hook hbh
  have hlen : ¬(acc.actions.length = 0) := by
    intro h0
    exact hne (List.length_eq_zero.mp h0)
  have hopfail : ∀ k, ∃ er,
      (Except.map (fun result => (result, acc.meta))
        (o.elasticsearch.client { opts := o.elasticsearch.bulk, body := acc.actions } k)
        : Except JsError (Value × List MetaEntry)) = .error er := by
    intro k
    obtain ⟨er, her⟩ := hfail { opts := o.elasticsearch.bulk, body := acc.actions } k
    exact ⟨er, by rw [her]; rfl⟩
  have htry : handleTry o e ctx =
      (let attempted := retryRun (fun attempt =>
          Except.map (fun result => (result, acc.meta))
            (o.elasticsearch.client
              { opts := o.elasticsearch.bulk, body := acc.actions } attempt))
          (effectiveRetries o)
       match attempted.1 with
       | .error e2 => { result := .error e2, bulkCalls := attempted.2, afterCalls := 0 }
       | .ok pr =>
          match o.afterHook with
          | some hook =>
              match hook e ctx pr.1 pr.2 with
              | .error e2 => { result := .error e2, bulkCalls := attempted.2, afterCalls := 1 }
              | .ok (some hookResult) =>
                  { result := .ok hookResult, bulkCalls := attempted.2, afterCalls := 1 }
              | .ok none => { result := .ok pr.1, bulkCalls := attempted.2, afterCalls := 1 }
          | none => { result := .ok pr.1, bulkCalls := attempted.2, afterCalls := 0 }) := by
    unfold handleTry
    rw [hb2, hv, hr]
    dsimp only
    rw [if_neg hlen]
  have hgo := retryGo_allFail _ hopfail (effectiveRetries o + 1) 0 (Nat.succ_ne_zero _)
  obtain ⟨er2, her2⟩ := hgo.2
  have htry2 : handleTry o e ctx =
      { result := .error er2, bulkCalls := effectiveRetries o + 1, afterCalls := 0 } := by
    rw [htry]
    dsimp only [retryRun]
    rw [her2, hgo.1]
  have hh : handle o e ctx =
      { result := .error er2, bulkCalls := effectiveRetries o + 1, afterCalls := 0 } := by
    unfold handle
    rw [htry2]
    dsimp only
    rw [hho]
  rw [hh]
  exact ⟨rfl, er2, rfl⟩


/-! ## Claim C6 -/

/-- C6: with retryOptions retries = 2 and an engine client whose bulk
submission always fails, the submission entry point is invoked exactly 3
times (retries + 1) before the invocation fails; with no retryOptions there
is no retry (exactly 1 invocation) before the invocation fails. -/
theorem c6_retry_exhaustion :
    (∀ o e ctx acc,
       (∀ h, o.beforeHook = some h → h e ctx = .ok ()) →
       validateEvent e = .ok () →
       buildRequest e ctx o = .ok acc →
       acc.actions ≠ [] →
       (∀ req k, ∃ er, o.elasticsearch.client req k = .error er) →
       o.errorHook = none →
       o.retryOptions = some { retries := some 2 } →
       ((handle o e ctx).bulkCalls = 3 ∧ ∃ er2, (handle o e ctx).result = .error er2))
  ∧ (∀ o e ctx acc,
       (∀ h, o.beforeHook = some h → h e ctx = .ok ()) →
       validateEvent e = .ok () →
       buildRequest e ctx o = .ok acc →
       acc.actions ≠ [] →
       (∀ req k, ∃ er, o.elasticsearch.client req k = .error er) →
       o.errorHook = none →
       o.retryOptions = none →
       ((handle o e ctx).bulkCalls = 1 ∧ ∃ er2, (handle o e ctx).result = .error er2)) := by
  constructor
  · intro o e ctx acc hb hv hr hne hfail hho hro
    have hmain := handle_allFail o e ctx acc hb hv hr hne hfail hho
    have heff : effectiveRetries o = 2 := by unfold effectiveRetries; rw [hro]; rfl
    rw [heff] at hmain
    exact hmain
  · intro o e ctx acc hb hv hr hne hfail hho hro
    have hmain := handle_allFail o e ctx acc hb hv hr hne hfail hho
    have heff : effectiveRetries o = 0 := by unfold effectiveRetries; rw [hro]; rfl
    rw [heff] at hmain
    exact hmain

def c6Client : BulkRequest → Nat → Except JsError Value :=
  fun _ _ => .error (.external "bulk failure")

def c6Event : Event :=
  { Records := [{ eventName := some "INSERT", dynamodb := some { Keys := [("k", .num 1)] } }] }

def c6Opts : Options :=
  { elasticsearch := { client := c6Client }, index := some "i",
    retryOptions := some { retries := some 2 } }

def c6OptsNoRetry : Options :=
  { elasticsearch := { client := c6Client }, index := some "i" }

def c6Desc : ActionDesc := { _index := .str "i", _id := .str "1" }

def c6Acc : BuildAcc :=
  { actions := [.act (.index c6Desc), .doc (.obj [])],
    meta := [{ eventRaw := { eventName := some "INSERT",
                             dynamodb := some { Keys := [("k", .num 1)] } },
               eventParsed := { Keys := [("k", .num 1)], NewImage := [], OldImage := [] },
               action := .index c6Desc, document := .obj [] }] }

/-- C6 witness: a concrete always-failing client is invoked 3 times with
retries 2 and once with no retryOptions. -/
theorem c6_witness :
    ((handle c6Opts c6Event ()).bulkCalls = 3
      ∧ ∃ er2, (handle c6Opts c6Event ()).result = .error er2)
    ∧ ((handle c6OptsNoRetry c6Event ()).bulkCalls = 1
      ∧ ∃ er2, (handle c6OptsNoRetry c6Event ()).result = .error er2) := by
  constructor
  · exact c6_retry_exhaustion.1 c6Opts c6Event () c6Acc (fun _f hh => nomatch hh) rfl rfl
      (fun h0 => List.noConfusion h0)
      (fun req k => ⟨.external "bulk failure", rfl⟩) rfl rfl
  · exact c6_retry_exhaustion.2 c6OptsNoRetry c6Event () c6Acc (fun _f hh => nomatch hh) rfl rfl
      (fun h0 => List.noConfusion h0)
      (fun req k => ⟨.external "bulk failure", rfl⟩) rfl rfl

/-! ## Claim C7 -/

/-- C7: when type and typeField are both unset the emitted action descriptor
contains no type attribute at all; and whenever a descriptor does carry a
type attribute, that value is truthy, so a falsy-resolving type can never be
serialized (in particular never as an empty string). -/
theorem c7_type_omission :
    (∀ r o out, optStrTruthy o.type = false → o.typeField = none →
        buildAction r o = .ok out → out.action._type = none)
  ∧ (∀ r o out v, buildAction r o = .ok out → out.action._type = some v →
        v.truthy = true) := by
  constructor
  · intro r o out hty htf hok
    obtain ⟨id, idx, t0, par, ver, _, _, h3, _, _, hout⟩ := buildAction_inv r o out hok
    subst hout
    unfold resolveType0 at h3
    rw [hty] at h3
    simp only [Bool.false_eq_true, if_false] at h3
    rw [htf] at h3
    cases h3
    rfl
  · intro r o out v hok htype
    obtain ⟨id, idx, t0, par, ver, _, _, _, _, _, hout⟩ := buildAction_inv r o out hok
    subst hout
    dsimp only at htype
    cases t0 with
    | none => exact absurd htype (by simp [omitBlankType])
    | some w =>
      unfold omitBlankType at htype
      dsimp only at htype
      by_cases hw : w.truthy = true
      · rw [if_pos hw] at htype
        cases htype
        exact hw
      · rw [if_neg hw] at htype
        cases htype

def c7Client : BulkRequest → Nat → Except JsError Value := fun _ _ => .ok emptyBulkResult

def c7Rec : ParsedRecord := { Keys := [("k", .str "v")], NewImage := [], OldImage := [] }

def c7Opts : Options := { elasticsearch := { client := c7Client }, index := some "i" }

def c7Out : BuildOut :=
  { doc := .obj [], action := { _index := .str "i", _id := .str "v" } }

/-- C7 witness: a configuration with neither type nor typeField emits a
descriptor whose type attribute is absent. -/
theorem c7_witness :
    optStrTruthy c7Opts.type = false ∧ c7Opts.typeField = none ∧
    buildAction c7Rec c7Opts = .ok c7Out ∧ c7Out.action._type = none :=
  ⟨rfl, rfl, rfl, c7_type_omission.1 c7Rec c7Opts c7Out rfl rfl rfl⟩

/-! ## Claim C8 -/

/-- C8: getField returns the first defined value found searching Keys, then
NewImage, then OldImage, in that order, and fails with FieldNotFoundError
carrying the record and the path exactly when the path is undefined in all
three views. -/
theorem c8_getField_order (r : ParsedRecord) (p : String) :
    (∀ v, jsGet r.Keys p = some v → getField r p = .ok v)
  ∧ (∀ v, jsGet r.Keys p = none → jsGet r.NewImage p = some v → getField r p = .ok v)
  ∧ (∀ v, jsGet r.Keys p = none → jsGet r.NewImage p = none →
        jsGet r.OldImage p = some v → getField r p = .ok v)
  ∧ (jsGet r.Keys p = none → jsGet r.NewImage p = none → jsGet r.OldImage p = none →
        getField r p = .error (.fieldNotFound r p)) := by
  refine ⟨?_, ?_, ?_, ?_⟩
  · intro v h1
    simp [getField, h1]
  · intro v h1 h2
    simp [getField, h1, h2]
  · intro v h1 h2 h3
    simp [getField, h1, h2, h3]
  · intro h1 h2 h3
    simp [getField, h1, h2, h3]

def c8Rec : ParsedRecord :=
  { Keys := [("f", .str "K")], NewImage := [("f", .str "N"), ("g", .str "GN")],
    OldImage := [("g", .str "GO"), ("h", .str "HO")] }

/-- C8 witness: each search-order branch of the theorem instantiated on a
record whose views shadow one another. -/
theorem c8_witness :
    getField c8Rec "f" = .ok (.str "K") ∧ getField c8Rec "g" = .ok (.str "GN") ∧
    getField c8Rec "h" = .ok (.str "HO") ∧
    getField c8Rec "z" = .error (.fieldNotFound c8Rec "z") :=
  ⟨(c8_getField_order c8Rec "f").1 _ rfl,
   (c8_getField_order c8Rec "g").2.1 _ rfl rfl,
   (c8_getField_order c8Rec "h").2.2.1 _ rfl rfl rfl,
   (c8_getField_order c8Rec "z").2.2.2 rfl rfl rfl⟩

/-! ## Claim C9 -/

def c9Client : BulkRequest → Nat → Except JsError Value := fun _ _ => .ok emptyBulkResult

def c9Rec : ParsedRecord :=
  { Keys := [("x", .str "a"), ("y", .str "b")], NewImage := [], OldImage := [] }

def c9OptsEmptySep : Options :=
  { elasticsearch := { client := c9Client },
    indexField := some (.many ["x", "y"]), separator := some "" }

def c9OptsDefault : Options :=
  { elasticsearch := { client := c9Client }, indexField := some (.many ["x", "y"]) }

/-- C9: assembleField on a single path returns the resolved value directly
without coercion; on an ordered list of paths it resolves each independently
and joins the results with the separator; indexField x,y with the empty
separator yields index name ab on keys x:a, y:b, and the default separator
yields a.b. -/
theorem c9_assembleField :
    (∀ r p sep, assembleField r (.one p) sep = getField r p)
  ∧ (∀ r paths sep vs, List.Forall₂ (fun p v => getField r p = .ok v) paths vs →
       assembleField r (.many paths) sep = .ok (.str (jsJoin vs sep)))
  ∧ (buildAction c9Rec c9OptsEmptySep).map (fun out => out.action._index) = .ok (.str "ab")
  ∧ (buildAction c9Rec c9OptsDefault).map (fun out => out.action._index) = .ok (.str "a.b") := by
  refine ⟨fun r p sep => rfl, ?_, rfl, rfl⟩
  intro r paths sep vs h
  simp [assembleField, mapGetFields_forall2 r paths vs h]

/-- C9 witness: the list and single-path branches instantiated on the keys
x:a, y:b. -/
theorem c9_witness :
    assembleField c9Rec (.many ["x", "y"]) "" = .ok (.str "ab") ∧
    assembleField c9Rec (.one "x") "" = getField c9Rec "x" := by
  constructor
  · have h := c9_assembleField.2.1 c9Rec ["x", "y"] ""
      [Value.str "a", Value.str "b"] (by constructor; rfl; constructor; rfl; constructor)
    exact h
  · exact c9_assembleField.1 c9Rec "x" ""

/-! ## Claim C10 -/

/-- C10: an invocation whose assembled action list is empty returns the
canonical empty result without invoking the afterHook even when one is
configured; and the afterHook can only ever run after the engine client's
bulk submission has succeeded. -/
theorem c10_afterHook_gating :
    (∀ o e ctx acc,
       (∀ h, o.beforeHook = some h → h e ctx = .ok ()) →
       validateEvent e = .ok () →
       buildRequest e ctx o = .ok acc → acc.actions = [] →
       ((handle o e ctx).result = .ok emptyBulkResult ∧ (handle o e ctx).afterCalls = 0))
  ∧ (∀ o e ctx, (handle o e ctx).afterCalls ≠ 0 →
       ∃ acc k result, buildRequest e ctx o = .ok acc ∧
         o.elasticsearch.client
           { opts := o.elasticsearch.bulk, body := acc.actions } k = .ok result) := by
  constructor
  · intro o e ctx acc hb hv hr hempty
    rw [handle_empty o e ctx acc hb hv hr hempty]
    exact ⟨rfl, rfl⟩
  · intro o e ctx hac
    rw [(handle_counts o e ctx).2] at hac
    unfold handleTry at hac
    split at hac
    · exact absurd rfl hac
    · split at hac
      · exact absurd rfl hac
      · split at hac
        · exact absurd rfl hac
        · rename_i parsedEvent hreq
          by_cases hlen : parsedEvent.actions.length = 0
          · rw [if_pos hlen] at hac
            exact absurd rfl hac
          · rw [if_neg hlen] at hac
            dsimp only at hac
            split at hac
            · exact absurd rfl hac
            · rename_i pr hpr
              unfold retryRun at hpr
              obtain ⟨k, hk⟩ := retryGo_ok _ (effectiveRetries o + 1) 0 pr hpr
              cases hc : o.elasticsearch.client
                  { opts := o.elasticsearch.bulk, body := parsedEvent.actions } k with
              | error er =>
                  rw [hc] at hk
                  exact absurd hk (by simp [Except.map])
              | ok w => exact ⟨parsedEvent, k, w, hreq, hc⟩

def c10Client : BulkRequest → Nat → Except JsError Value := fun _ _ => .ok emptyBulkResult

def c10Opts : Options :=
  { elasticsearch := { client := c10Client }, index := some "i",
    transformRecordHook := some (fun _ _ => .null),
    afterHook := some (fun _ _ _ _ => .ok (some (.str "after"))) }

def c10Event : Event :=
  { Records := [{ eventName := some "INSERT", dynamodb := some { Keys := [("k", .num 1)] } }] }

/-- C10 witness: with an afterHook configured and every document transformed
to null, the invocation settles on the canonical empty result without
running the afterHook. -/
theorem c10_witness :
    c10Opts.afterHook.isSome = true ∧
    (handle c10Opts c10Event ()).result = .ok emptyBulkResult ∧
    (handle c10Opts c10Event ()).afterCalls = 0 :=
  ⟨rfl, c10_afterHook_gating.1 c10Opts c10Event () { actions := [], meta := [] }
      (fun _f hh => nomatch hh) rfl rfl rfl⟩

end Ddb2Es
